import Mathlib

/-!
Shallow embedding of `ilastik/workflows/carving/opPreprocessing.py`
(the carving preprocessing pipeline) and proofs of its specified
properties.

Machine floats are modelled by rationals; a float value that IEEE
arithmetic would turn non-finite (division by zero producing inf or
NaN) is modelled by the `FloatVal.nonfinite` constructor.  External
collaborators (the blockwise filter backend, the watershed backend,
the graph builder) are black boxes: they appear as function arguments
or as abstract outcome values, exactly as the spec treats them.
-/

/-- A float value: either a finite rational or a non-finite value
(NaN or infinity), which IEEE division by zero produces. -/
inductive FloatVal where
  | finite (q : ℚ)
  | nonfinite
deriving DecidableEq, Repr

/-- IEEE-style division: a zero denominator yields a non-finite value
(inf or NaN), never an exception. -/
def fdiv (a b : ℚ) : FloatVal :=
  if b = 0 then FloatVal.nonfinite else FloatVal.finite (a / b)

/-- Global minimum of a list of values, as `numpy.min` computes it on the
materialized buffer (defined as 0 on the empty list, which numpy rejects;
all uses are on nonempty volumes). -/
def listMin : List ℚ → ℚ
  | [] => 0
  | [x] => x
  | x :: y :: ys => min x (listMin (y :: ys))

/-- Global maximum of a list of values, as `numpy.max` computes it. -/
def listMax : List ℚ → ℚ
  | [] => 0
  | [x] => x
  | x :: y :: ys => max x (listMax (y :: ys))

namespace OpNormalize255

/-- Possible processing failures of the normalization stage.  The stage
as implemented never constructs one: the value records that the claimed
error channel exists but is unused. -/
inductive NormErr where
  | constantVolume
deriving DecidableEq, Repr

/-- Embedding of `OpNormalize255.execute`: the requested region is materialized into
the result buffer, its (request-local) minimum and maximum are taken,
and the buffer is rescaled in place by
`result -= min; result *= 255.0; result /= max - min`.
`region` holds the values of the materialized request (for the
whole-volume requests issued by the pipeline, the entire volume).
No error is ever raised: a zero denominator flows through IEEE division. -/
def execute (region : List ℚ) : Except NormErr (List FloatVal) :=
  Except.ok (region.map (fun x =>
    fdiv ((x - listMin region) * 255) (listMax region - listMin region)))

end OpNormalize255

namespace OpFilter

def HESSIAN_BRIGHT : ℕ := 0
def HESSIAN_DARK : ℕ := 1
def STEP_EDGES : ℕ := 2
def RAW : ℕ := 3
def RAW_INVERTED : ℕ := 4

/-- Embedding of `OpFilter.FILTER_NAMES`: the dictionary from filter code to backend
filter name (`none` models the `KeyError` on an unknown code). -/
def FILTER_NAMES : ℕ → Option String
  | 0 => some "hessianOfGaussianEigenvalues"
  | 1 => some "hessianOfGaussianEigenvalues"
  | 2 => some "gaussianGradientMagnitude"
  | 3 => some "gaussianSmoothing"
  | 4 => some "gaussianSmoothing"
  | _ => none

/-- Channel retained during block-wise computation:
last eigen-channel (`ndim - 1`) for HESSIAN_BRIGHT, first (`0`) for
HESSIAN_DARK, all channels (`none`) otherwise. -/
def channelOf (volumeFilter ndim : ℕ) : Option ℕ :=
  if volumeFilter = HESSIAN_BRIGHT then some (ndim - 1)
  else if volumeFilter = HESSIAN_DARK then some 0
  else none

/-- The clamp `max(1, Request.global_thread_pool.num_workers)` as computed
in `OpFilter.execute`. -/
def maxWorkersOf (numWorkers : ℕ) : ℕ := max 1 numWorkers

/-- The filter-selection core of `OpFilter.execute` after 5D validation
and the 2d squeeze: negate the input for RAW_INVERTED, select the
retained eigen-channel, run the block-wise backend `pf`
(`parallel_filter`, abstract: name, volume, sigma, max workers,
returned channel), and for HESSIAN_BRIGHT subtract the response from
its own global maximum. -/
def execute (pf : String → List ℚ → ℚ → ℕ → Option ℕ → List ℚ)
    (volumeFilter : ℕ) (fvol : List ℚ) (sigma : ℚ) (ndim : ℕ)
    (numWorkers : ℕ) : List ℚ :=
  let fvolIn := if volumeFilter = RAW_INVERTED then fvol.map (fun x => -x) else fvol
  let channel := channelOf volumeFilter ndim
  let filterName := (FILTER_NAMES volumeFilter).getD ""
  let response := pf filterName fvolIn sigma (maxWorkersOf numWorkers) channel
  if volumeFilter = HESSIAN_BRIGHT then
    response.map (fun x => listMax response - x)
  else
    response

end OpFilter

namespace OpSimpleBlockwiseWatershed

/-- Effect of `numpy.squeeze` on a shape: drop the singleton axes. -/
def squeezeShape (sh : List ℕ) : List ℕ := sh.filter (fun d => d ≠ 1)

/-- The clamp `max(1, Request.global_thread_pool.num_workers)` as computed
in `OpSimpleBlockwiseWatershed.execute`. -/
def maxWorkersOf (numWorkers : ℕ) : ℕ := max 1 numWorkers

/-- Outcome of the watershed stage: either the agglomerating backend
(`watershed_and_agglomerate`) was invoked, with the squeezed input shape
and the worker count handed to it, or the plain backend
(`vigra.analysis.watershedsNew`) was. -/
inductive WatershedRun where
  | agglomerated (squeezedShape : List ℕ) (workers : ℕ)
  | plain (squeezedShape : List ℕ)
deriving DecidableEq, Repr

/-- Embedding of `OpSimpleBlockwiseWatershed.execute`:
reject a request whose extent differs from the full output shape,
reject non-`txyzc` axis keys, fetch the requested region, squeeze its
singleton axes, reject a squeezed dimensionality other than 2 or 3, and
run the (black-box) watershed backend, agglomerating when `doAgglo` is
set. -/
def execute (inputShape : List ℕ) (axisKeys : List Char)
    (roiStart roiStop : List ℕ) (doAgglo : Bool) (numWorkers : ℕ) :
    Except String WatershedRun :=
  if (List.zipWith (fun b a => b - a) roiStop roiStart) ≠ inputShape then
    Except.error "Blockwise Watershed must be run on the entire volume"
  else if axisKeys ≠ ['t', 'x', 'y', 'z', 'c'] then
    Except.error "Unsupported input axis keys"
  else
    let fetchedShape := List.zipWith (fun b a => b - a) roiStop roiStart
    let squeezed := squeezeShape fetchedShape
    if ¬(squeezed.length = 2 ∨ squeezed.length = 3) then
      Except.error "Input shape has an invalid number of non-singleton dimensions"
    else if doAgglo then
      Except.ok (WatershedRun.agglomerated squeezed (maxWorkersOf numWorkers))
    else
      Except.ok (WatershedRun.plain squeezed)

end OpSimpleBlockwiseWatershed

namespace OpMstSegmentorProvider

/-- Embedding of `OpMstSegmentorProvider.execute` over an abstract try-block body.
`body` is everything inside the `try:` — fetching the feature and label
volumes and building the `WatershedSegmentor` — given as the progress
signals it emits through its callback and its outcome (`M` is the
built graph, `String` a raised error).  The method first emits the
indeterminate signal `-1`; the `finally:` block emits `100` on every
exit path before the outcome (success or failure) propagates. -/
def execute {M : Type} (body : List Int × Except String M) :
    List Int × Except String M :=
  (((-1 : Int) :: body.1) ++ [100], body.2)

end OpMstSegmentorProvider

namespace OpPreprocessing

/-- The pipeline parameter slots read by `OpPreprocessing.execute`
(Sigma, Filter, DoAgglo, SizeRegularizer, ReduceTo). -/
structure PipelineParams where
  sigma : ℚ
  filterKind : ℕ
  doAgglo : ℕ
  sizeRegularizer : ℚ
  reduceTo : ℚ
deriving DecidableEq, Repr

/-- The orchestrator's mutable state: the cached result cell
(`cachedResult[0]`), the unsaved-data flag, the dirty flag, and the five
cached parameter fields.  `M` is the type of the built MST object. -/
structure State (M : Type) where
  cachedResult : Option M
  hasUnsavedData : Bool
  dirty : Bool
  cachedSigma : Option ℚ
  cachedFilter : Option ℕ
  cachedDoAgglo : Option ℕ
  cachedSizeRegularizer : Option ℚ
  cachedReduceTo : Option ℚ
deriving DecidableEq, Repr

/-- The slots whose dirty notifications reach
`OpPreprocessing.propagateDirty`. -/
inductive SlotId where
  | overlayData
  | inputData
  | sigma
  | filterKind
  | doAgglo
  | sizeRegularizer
  | reduceTo
deriving DecidableEq, Repr

/-- Embedding of `OpPreprocessing.execute` on the `PreprocessedData` slot.
If the operator is not dirty and a cached result exists, the cached
result is returned unchanged (and the MST recomputation `mstComp` is
not consulted).  Otherwise the MST is recomputed — `mstComp` is its
outcome; a raised error propagates before any state is touched — and on
success the parameter snapshot is taken, the unsaved flag set, the
dirty flag cleared, the result cached, and a dirty notification emitted
on `PreprocessedData` (the returned `Bool`). -/
def execute {M : Type} (st : State M) (p : PipelineParams)
    (mstComp : Except String M) : State M × Except String M × Bool :=
  match st.dirty, st.cachedResult with
  | false, some r => (st, Except.ok r, false)
  | _, _ =>
    match mstComp with
    | Except.error e => (st, Except.error e, false)
    | Except.ok mst =>
      ({ cachedResult := some mst
         hasUnsavedData := true
         dirty := false
         cachedSigma := some p.sigma
         cachedFilter := some p.filterKind
         cachedDoAgglo := some p.doAgglo
         cachedSizeRegularizer := some p.sizeRegularizer
         cachedReduceTo := some p.reduceTo },
       Except.ok mst, true)

/-- Embedding of `OpPreprocessing.propagateDirty`: a change on `InputData` resets the
whole parameter snapshot and drops the cached result; every change sets
the dirty flag. -/
def propagateDirty {M : Type} (slot : SlotId) (st : State M) : State M :=
  let st1 :=
    if slot = SlotId.inputData then
      { st with
        cachedSigma := none
        cachedFilter := none
        cachedDoAgglo := none
        cachedSizeRegularizer := none
        cachedReduceTo := none
        cachedResult := none }
    else st
  { st1 with dirty := true }

end OpPreprocessing

/-! ### Helper lemmas about `listMin` and `listMax` -/

theorem listMin_cons (x : ℚ) (l : List ℚ) (h : l ≠ []) :
    listMin (x :: l) = min x (listMin l) := by
  cases l with
  | nil => exact absurd rfl h
  | cons y ys => rfl

theorem listMax_cons (x : ℚ) (l : List ℚ) (h : l ≠ []) :
    listMax (x :: l) = max x (listMax l) := by
  cases l with
  | nil => exact absurd rfl h
  | cons y ys => rfl

theorem min_map_comm (f : ℚ → ℚ) (hf : ∀ a b, a ≤ b → f a ≤ f b) (a b : ℚ) :
    f (min a b) = min (f a) (f b) := by
  rcases le_total a b with h | h
  · rw [min_eq_left h, min_eq_left (hf a b h)]
  · rw [min_eq_right h, min_eq_right (hf b a h)]

theorem max_map_comm (f : ℚ → ℚ) (hf : ∀ a b, a ≤ b → f a ≤ f b) (a b : ℚ) :
    f (max a b) = max (f a) (f b) := by
  rcases le_total a b with h | h
  · rw [max_eq_right h, max_eq_right (hf a b h)]
  · rw [max_eq_left h, max_eq_left (hf b a h)]

theorem listMin_map_mono (f : ℚ → ℚ) (hf : ∀ a b, a ≤ b → f a ≤ f b) :
    ∀ l : List ℚ, l ≠ [] → listMin (List.map f l) = f (listMin l) := by
  intro l
  induction l with
  | nil => intro h; exact absurd rfl h
  | cons x xs ih =>
    intro _
    cases xs with
    | nil => rfl
    | cons y ys =>
      calc listMin (List.map f (x :: y :: ys))
          = min (f x) (listMin (List.map f (y :: ys))) := rfl
        _ = min (f x) (f (listMin (y :: ys))) := by rw [ih (by simp)]
        _ = f (min x (listMin (y :: ys))) := (min_map_comm f hf _ _).symm
        _ = f (listMin (x :: y :: ys)) := rfl

theorem listMax_map_mono (f : ℚ → ℚ) (hf : ∀ a b, a ≤ b → f a ≤ f b) :
    ∀ l : List ℚ, l ≠ [] → listMax (List.map f l) = f (listMax l) := by
  intro l
  induction l with
  | nil => intro h; exact absurd rfl h
  | cons x xs ih =>
    intro _
    cases xs with
    | nil => rfl
    | cons y ys =>
      calc listMax (List.map f (x :: y :: ys))
          = max (f x) (listMax (List.map f (y :: ys))) := rfl
        _ = max (f x) (f (listMax (y :: ys))) := by rw [ih (by simp)]
        _ = f (max x (listMax (y :: ys))) := (max_map_comm f hf _ _).symm
        _ = f (listMax (x :: y :: ys)) := rfl

theorem listMin_le_listMax (l : List ℚ) (h : l ≠ []) : listMin l ≤ listMax l := by
  cases l with
  | nil => exact absurd rfl h
  | cons x xs =>
    cases xs with
    | nil => exact le_refl x
    | cons y ys =>
      calc listMin (x :: y :: ys) ≤ x := min_le_left _ _
        _ ≤ listMax (x :: y :: ys) := le_max_left _ _

/-! ### Claim theorems -/

/-- C1: the spec requires a constant input volume (global minimum equal
to global maximum) to raise an explicit processing failure; the code
instead performs the in-place division with a zero denominator and
returns successfully, every element of the returned buffer non-finite.
Evaluated at the constant volume `[5, 5]`. -/
theorem normalize255_constant_silent_nonfinite :
    OpNormalize255.execute [5, 5] =
      Except.ok [FloatVal.nonfinite, FloatVal.nonfinite] := by
  simp [OpNormalize255.execute, listMin, listMax, fdiv]

/-- C5: for every non-constant input volume, `OpNormalize255.execute`
on the whole-volume request returns (without failure) the same-length
volume in which each element `x` is linearly rescaled to
`(x - min) * 255 / (max - min)` with `min`/`max` the whole-volume global
minimum and maximum, every output element is finite, the output's
global minimum is 0 and its global maximum is 255. -/
theorem normalize255_global_rescale (vol : List ℚ) (hne : vol ≠ [])
    (hnc : listMin vol ≠ listMax vol) :
    OpNormalize255.execute vol = Except.ok
        ((vol.map (fun x =>
          (x - listMin vol) * 255 / (listMax vol - listMin vol))).map
            FloatVal.finite) ∧
    ((vol.map (fun x =>
      (x - listMin vol) * 255 / (listMax vol - listMin vol))).length
        = vol.length) ∧
    listMin (vol.map (fun x =>
      (x - listMin vol) * 255 / (listMax vol - listMin vol))) = 0 ∧
    listMax (vol.map (fun x =>
      (x - listMin vol) * 255 / (listMax vol - listMin vol))) = 255 := by
  have hlt : listMin vol < listMax vol :=
    lt_of_le_of_ne (listMin_le_listMax vol hne) hnc
  have hd : listMax vol - listMin vol ≠ 0 := by
    have : (0 : ℚ) < listMax vol - listMin vol := sub_pos.mpr hlt
    exact ne_of_gt this
  have hdpos : (0 : ℚ) < listMax vol - listMin vol := sub_pos.mpr hlt
  have hmono : ∀ a b : ℚ, a ≤ b →
      (a - listMin vol) * 255 / (listMax vol - listMin vol) ≤
      (b - listMin vol) * 255 / (listMax vol - listMin vol) := by
    intro a b hab
    gcongr
  refine ⟨?_, by simp, ?_, ?_⟩
  · unfold OpNormalize255.execute
    rw [List.map_map]
    congr 1
    apply List.map_congr_left
    intro x _
    simp only [Function.comp_apply, fdiv, if_neg hd]
  · rw [listMin_map_mono _ hmono vol hne]
    simp
  · rw [listMax_map_mono _ hmono vol hne]
    field_simp

/-- Witness for C5 at the concrete volume `[0, 2]`. -/
theorem normalize255_global_rescale_witness :
    OpNormalize255.execute [0, 2] = Except.ok
        ((([0, 2] : List ℚ).map (fun x =>
          (x - listMin [0, 2]) * 255 / (listMax [0, 2] - listMin [0, 2]))).map
            FloatVal.finite) ∧
    ((([0, 2] : List ℚ).map (fun x =>
      (x - listMin [0, 2]) * 255 / (listMax [0, 2] - listMin [0, 2]))).length
        = ([0, 2] : List ℚ).length) ∧
    listMin (([0, 2] : List ℚ).map (fun x =>
      (x - listMin [0, 2]) * 255 / (listMax [0, 2] - listMin [0, 2]))) = 0 ∧
    listMax (([0, 2] : List ℚ).map (fun x =>
      (x - listMin [0, 2]) * 255 / (listMax [0, 2] - listMin [0, 2]))) = 255 :=
  normalize255_global_rescale [0, 2] (by simp) (by norm_num [listMin, listMax])

/-! ### Helper equations for `OpPreprocessing.execute` -/

theorem OpPreprocessing.execute_clean {M : Type} (st : OpPreprocessing.State M)
    (r : M) (p : OpPreprocessing.PipelineParams) (m : Except String M)
    (h1 : st.dirty = false) (h2 : st.cachedResult = some r) :
    OpPreprocessing.execute st p m = (st, Except.ok r, false) := by
  unfold OpPreprocessing.execute
  rw [h1, h2]

theorem OpPreprocessing.execute_recompute_error {M : Type}
    (st : OpPreprocessing.State M) (p : OpPreprocessing.PipelineParams)
    (e : String) :
    (OpPreprocessing.execute st p (Except.error e)).1 = st := by
  unfold OpPreprocessing.execute
  cases hd : st.dirty <;> cases hc : st.cachedResult <;> rfl

theorem OpPreprocessing.execute_dirty_ok {M : Type}
    (st : OpPreprocessing.State M) (p : OpPreprocessing.PipelineParams)
    (mst : M) (h1 : st.dirty = true) :
    OpPreprocessing.execute st p (Except.ok mst) =
      ({ cachedResult := some mst
         hasUnsavedData := true
         dirty := false
         cachedSigma := some p.sigma
         cachedFilter := some p.filterKind
         cachedDoAgglo := some p.doAgglo
         cachedSizeRegularizer := some p.sizeRegularizer
         cachedReduceTo := some p.reduceTo },
       Except.ok mst, true) := by
  unfold OpPreprocessing.execute
  rw [h1]

/-- C2: if the orchestrator is not dirty and a cached result exists,
`OpPreprocessing.execute` returns exactly the cached result with the
state untouched and no notification, for every possible outcome of the
expensive MST chain (so the chain is not consulted); and after any call
that returned a result, an immediately repeated call with no
intervening change returns the same result without consulting the chain
— the chain runs at most once per dirty transition. -/
theorem orchestrator_memoization (M : Type) (st : OpPreprocessing.State M)
    (p : OpPreprocessing.PipelineParams) (m : Except String M) :
    (∀ r : M, st.dirty = false → st.cachedResult = some r →
      OpPreprocessing.execute st p m = (st, Except.ok r, false)) ∧
    (∀ (r : M) (p2 : OpPreprocessing.PipelineParams) (m2 : Except String M),
      (OpPreprocessing.execute st p m).2.1 = Except.ok r →
      OpPreprocessing.execute (OpPreprocessing.execute st p m).1 p2 m2 =
        ((OpPreprocessing.execute st p m).1, Except.ok r, false)) := by
  constructor
  · intro r h1 h2
    exact OpPreprocessing.execute_clean st r p m h1 h2
  · intro r p2 m2 h
    cases hd : st.dirty with
    | false =>
      cases hc : st.cachedResult with
      | none =>
        cases m with
        | error e =>
          exfalso
          unfold OpPreprocessing.execute at h
          rw [hd, hc] at h
          exact Except.noConfusion h
        | ok mst =>
          unfold OpPreprocessing.execute at h ⊢
          rw [hd, hc] at h ⊢
          simp only at h
          cases h
          rfl
      | some c =>
        have he := OpPreprocessing.execute_clean st c p m hd hc
        rw [he] at h
        cases h
        rw [he]
        exact OpPreprocessing.execute_clean st _ p2 m2 hd hc
    | true =>
      cases m with
      | error e =>
        exfalso
        unfold OpPreprocessing.execute at h
        rw [hd] at h
        cases hc : st.cachedResult <;> rw [hc] at h <;>
          exact Except.noConfusion h
      | ok mst =>
        rw [OpPreprocessing.execute_dirty_ok st p mst hd] at h ⊢
        simp only at h
        cases h
        apply OpPreprocessing.execute_clean <;> rfl

/-- A concrete clean orchestrator state with a cached result, used by
witnesses. -/
def stCleanExample : OpPreprocessing.State ℕ :=
  { cachedResult := some 7
    hasUnsavedData := false
    dirty := false
    cachedSigma := some (8 / 5)
    cachedFilter := some 0
    cachedDoAgglo := some 1
    cachedSizeRegularizer := some (1 / 2)
    cachedReduceTo := some (1 / 5) }

/-- A concrete dirty orchestrator state, used by witnesses. -/
def stDirtyExample : OpPreprocessing.State ℕ :=
  { cachedResult := some 7
    hasUnsavedData := true
    dirty := true
    cachedSigma := some (8 / 5)
    cachedFilter := some 0
    cachedDoAgglo := some 1
    cachedSizeRegularizer := some (1 / 2)
    cachedReduceTo := some (1 / 5) }

/-- Concrete pipeline parameters, used by witnesses. -/
def pExample : OpPreprocessing.PipelineParams :=
  { sigma := 8 / 5
    filterKind := 0
    doAgglo := 1
    sizeRegularizer := 1 / 2
    reduceTo := 1 / 5 }

/-- Witness for C2: on a clean state with cached result 7, a call whose
MST chain would even fail still returns the cached 7 untouched. -/
theorem orchestrator_memoization_witness :
    OpPreprocessing.execute stCleanExample pExample (Except.error "boom") =
      (stCleanExample, Except.ok 7, false) :=
  (orchestrator_memoization ℕ stCleanExample pExample
    (Except.error "boom")).1 7 rfl rfl

/-- C3: `OpPreprocessing.propagateDirty` sets the dirty flag for a
change on any slot; a change on `InputData` additionally resets every
cached parameter field to unset and drops the cached result, while a
change on any other slot leaves everything but the dirty flag
untouched. -/
theorem propagateDirty_dirty_transition (M : Type)
    (st : OpPreprocessing.State M) (slot : OpPreprocessing.SlotId) :
    (OpPreprocessing.propagateDirty slot st).dirty = true ∧
    (slot = OpPreprocessing.SlotId.inputData →
      OpPreprocessing.propagateDirty slot st =
        { cachedResult := none
          hasUnsavedData := st.hasUnsavedData
          dirty := true
          cachedSigma := none
          cachedFilter := none
          cachedDoAgglo := none
          cachedSizeRegularizer := none
          cachedReduceTo := none }) ∧
    (slot ≠ OpPreprocessing.SlotId.inputData →
      OpPreprocessing.propagateDirty slot st = { st with dirty := true }) := by
  by_cases hs : slot = OpPreprocessing.SlotId.inputData <;>
    simp [OpPreprocessing.propagateDirty, hs]

/-- Witness for C3: a sigma change only sets the dirty flag; an input
change resets the snapshot and drops the cache. -/
theorem propagateDirty_dirty_transition_witness :
    OpPreprocessing.propagateDirty OpPreprocessing.SlotId.sigma
        stCleanExample = { stCleanExample with dirty := true } ∧
    OpPreprocessing.propagateDirty OpPreprocessing.SlotId.inputData
        stCleanExample =
      { cachedResult := none
        hasUnsavedData := stCleanExample.hasUnsavedData
        dirty := true
        cachedSigma := none
        cachedFilter := none
        cachedDoAgglo := none
        cachedSizeRegularizer := none
        cachedReduceTo := none } :=
  ⟨(propagateDirty_dirty_transition ℕ stCleanExample
      OpPreprocessing.SlotId.sigma).2.2 (by decide),
   (propagateDirty_dirty_transition ℕ stCleanExample
      OpPreprocessing.SlotId.inputData).2.1 rfl⟩

/-- C4: when the MST recomputation inside `OpPreprocessing.execute`
fails, the whole orchestrator state — cached result, parameter
snapshot, unsaved flag and dirty flag — is returned exactly as it was,
and on the recomputation path the failure propagates to the caller with
no notification emitted. -/
theorem execute_failure_atomic (M : Type) (st : OpPreprocessing.State M)
    (p : OpPreprocessing.PipelineParams) (e : String) :
    (OpPreprocessing.execute st p (Except.error e)).1 = st ∧
    (st.dirty = true →
      OpPreprocessing.execute st p (Except.error e) =
        (st, Except.error e, false)) := by
  constructor
  · exact OpPreprocessing.execute_recompute_error st p e
  · intro hd
    unfold OpPreprocessing.execute
    rw [hd]

/-- Witness for C4 at a concrete dirty state and failing MST chain. -/
theorem execute_failure_atomic_witness :
    OpPreprocessing.execute stDirtyExample pExample (Except.error "boom") =
      (stDirtyExample, Except.error "boom", false) :=
  (execute_failure_atomic ℕ stDirtyExample pExample "boom").2 rfl

/-- C10: on the clean cached path, `OpPreprocessing.execute` leaves
every piece of orchestrator state unchanged — dirty flag, unsaved
flag, all five cached parameter fields, and the cached result — and
emits no dirty notification on `PreprocessedData`. -/
theorem clean_execute_frame (M : Type) (st : OpPreprocessing.State M)
    (r : M) (p : OpPreprocessing.PipelineParams) (m : Except String M)
    (h1 : st.dirty = false) (h2 : st.cachedResult = some r) :
    (OpPreprocessing.execute st p m).1 = st ∧
    (OpPreprocessing.execute st p m).1.dirty = st.dirty ∧
    (OpPreprocessing.execute st p m).1.hasUnsavedData = st.hasUnsavedData ∧
    (OpPreprocessing.execute st p m).1.cachedSigma = st.cachedSigma ∧
    (OpPreprocessing.execute st p m).1.cachedFilter = st.cachedFilter ∧
    (OpPreprocessing.execute st p m).1.cachedDoAgglo = st.cachedDoAgglo ∧
    (OpPreprocessing.execute st p m).1.cachedSizeRegularizer
      = st.cachedSizeRegularizer ∧
    (OpPreprocessing.execute st p m).1.cachedReduceTo = st.cachedReduceTo ∧
    (OpPreprocessing.execute st p m).1.cachedResult = st.cachedResult ∧
    (OpPreprocessing.execute st p m).2.1 = Except.ok r ∧
    (OpPreprocessing.execute st p m).2.2 = false := by
  rw [OpPreprocessing.execute_clean st r p m h1 h2]
  exact ⟨rfl, rfl, rfl, rfl, rfl, rfl, rfl, rfl, rfl, rfl, rfl⟩

/-- Witness for C10 at a concrete clean state (MST chain outcome 42 is
ignored; the cached 7 is served and nothing changes). -/
theorem clean_execute_frame_witness :
    (OpPreprocessing.execute stCleanExample pExample (Except.ok 42)).1
        = stCleanExample ∧
    (OpPreprocessing.execute stCleanExample pExample (Except.ok 42)).1.dirty
        = stCleanExample.dirty ∧
    (OpPreprocessing.execute stCleanExample pExample
        (Except.ok 42)).1.hasUnsavedData = stCleanExample.hasUnsavedData ∧
    (OpPreprocessing.execute stCleanExample pExample
        (Except.ok 42)).1.cachedSigma = stCleanExample.cachedSigma ∧
    (OpPreprocessing.execute stCleanExample pExample
        (Except.ok 42)).1.cachedFilter = stCleanExample.cachedFilter ∧
    (OpPreprocessing.execute stCleanExample pExample
        (Except.ok 42)).1.cachedDoAgglo = stCleanExample.cachedDoAgglo ∧
    (OpPreprocessing.execute stCleanExample pExample
        (Except.ok 42)).1.cachedSizeRegularizer
        = stCleanExample.cachedSizeRegularizer ∧
    (OpPreprocessing.execute stCleanExample pExample
        (Except.ok 42)).1.cachedReduceTo = stCleanExample.cachedReduceTo ∧
    (OpPreprocessing.execute stCleanExample pExample
        (Except.ok 42)).1.cachedResult = stCleanExample.cachedResult ∧
    (OpPreprocessing.execute stCleanExample pExample (Except.ok 42)).2.1
        = Except.ok 7 ∧
    (OpPreprocessing.execute stCleanExample pExample (Except.ok 42)).2.2
        = false :=
  clean_execute_frame ℕ stCleanExample 7 pExample (Except.ok 42) rfl rfl

/-- C6: `OpMstSegmentorProvider.execute` emits the completion signal
100 as the last progress signal on every exit path — whatever signals
the try-block body emitted and whether it succeeded or raised — and the
body's outcome (including a failure) then propagates unchanged to the
caller. -/
theorem mstProvider_completion_signal (M : Type)
    (body : List Int × Except String M) :
    (OpMstSegmentorProvider.execute body).1.getLast? = some 100 ∧
    (OpMstSegmentorProvider.execute body).1 =
      ((-1 : Int) :: body.1) ++ [100] ∧
    (OpMstSegmentorProvider.execute body).2 = body.2 := by
  refine ⟨?_, rfl, rfl⟩
  show (((-1 : Int) :: body.1) ++ [(100 : Int)]).getLast? = some (100 : Int)
  exact List.getLast?_concat _

/-- C8: in `OpFilter.execute`, the HESSIAN_BRIGHT kind retains only the
last eigen-channel (`ndim - 1`) and HESSIAN_DARK only the first (`0`);
every other kind retains all channels; for HESSIAN_BRIGHT — and for no
other kind — the retained response is transformed into
`max(response) - response`. -/
theorem filter_channel_selection_inversion
    (pf : String → List ℚ → ℚ → ℕ → Option ℕ → List ℚ)
    (fvol : List ℚ) (sigma : ℚ) (ndim nw : ℕ) :
    OpFilter.channelOf OpFilter.HESSIAN_BRIGHT ndim = some (ndim - 1) ∧
    OpFilter.channelOf OpFilter.HESSIAN_DARK ndim = some 0 ∧
    (∀ k : ℕ, k ≠ OpFilter.HESSIAN_BRIGHT → k ≠ OpFilter.HESSIAN_DARK →
      OpFilter.channelOf k ndim = none) ∧
    OpFilter.execute pf OpFilter.HESSIAN_BRIGHT fvol sigma ndim nw =
      (pf "hessianOfGaussianEigenvalues" fvol sigma
        (OpFilter.maxWorkersOf nw) (some (ndim - 1))).map
        (fun x =>
          listMax (pf "hessianOfGaussianEigenvalues" fvol sigma
            (OpFilter.maxWorkersOf nw) (some (ndim - 1))) - x) ∧
    OpFilter.execute pf OpFilter.HESSIAN_DARK fvol sigma ndim nw =
      pf "hessianOfGaussianEigenvalues" fvol sigma
        (OpFilter.maxWorkersOf nw) (some 0) ∧
    (∀ k : ℕ, k ≠ OpFilter.HESSIAN_BRIGHT →
      OpFilter.execute pf k fvol sigma ndim nw =
        pf ((OpFilter.FILTER_NAMES k).getD "")
          (if k = OpFilter.RAW_INVERTED then fvol.map (fun x => -x) else fvol)
          sigma (OpFilter.maxWorkersOf nw) (OpFilter.channelOf k ndim)) := by
  refine ⟨rfl, rfl, ?_, rfl, rfl, ?_⟩
  · intro k h0 h1
    simp [OpFilter.channelOf, h0, h1]
  · intro k hk
    simp [OpFilter.execute, hk]

/-- The block-wise filter backend instantiated for witnesses: it
returns the input volume unchanged. -/
def pfExample : String → List ℚ → ℚ → ℕ → Option ℕ → List ℚ :=
  fun _ v _ _ _ => v

/-- Witness for C8: the edge-magnitude kind (code 2) retains all
channels and applies no inversion. -/
theorem filter_channel_selection_inversion_witness :
    OpFilter.channelOf OpFilter.STEP_EDGES 3 = none ∧
    OpFilter.execute pfExample OpFilter.STEP_EDGES [3] 1 3 0 =
      pfExample ((OpFilter.FILTER_NAMES OpFilter.STEP_EDGES).getD "")
        (if OpFilter.STEP_EDGES = OpFilter.RAW_INVERTED
          then ([3] : List ℚ).map (fun x => -x) else [3])
        1 (OpFilter.maxWorkersOf 0) (OpFilter.channelOf OpFilter.STEP_EDGES 3) :=
  ⟨(filter_channel_selection_inversion pfExample [3] 1 3 0).2.2.1
      OpFilter.STEP_EDGES (by decide) (by decide),
   (filter_channel_selection_inversion pfExample [3] 1 3 0).2.2.2.2.2
      OpFilter.STEP_EDGES (by decide)⟩

/-- C9: the effective worker count of both block-parallel stages is
`max 1 n` for a reported pool size `n`, hence at least 1 even when the
pool reports zero workers; `OpFilter.execute` hands exactly that count
to the block-wise filter backend, and `OpSimpleBlockwiseWatershed`
hands exactly that count to the agglomerating watershed backend. -/
theorem effective_workers_clamped (n : ℕ) :
    OpFilter.maxWorkersOf n = max 1 n ∧
    1 ≤ OpFilter.maxWorkersOf n ∧
    OpSimpleBlockwiseWatershed.maxWorkersOf n = max 1 n ∧
    1 ≤ OpSimpleBlockwiseWatershed.maxWorkersOf n ∧
    OpFilter.execute (fun _ _ _ w _ => [(w : ℚ)]) OpFilter.RAW [0] 1 3 n =
      [((max 1 n : ℕ) : ℚ)] ∧
    OpSimpleBlockwiseWatershed.execute [1, 4, 5, 1, 1]
      ['t', 'x', 'y', 'z', 'c'] [0, 0, 0, 0, 0] [1, 4, 5, 1, 1] true n =
      Except.ok (OpSimpleBlockwiseWatershed.WatershedRun.agglomerated
        [4, 5] (max 1 n)) := by
  refine ⟨rfl, le_max_left 1 n, rfl, le_max_left 1 n, rfl, ?_⟩
  rfl

/-! ### Helper lemmas for the watershed request preconditions -/

theorem zipWith_sub_replicate_zero (l : List ℕ) :
    List.zipWith (fun b a => b - a) l (List.replicate l.length 0) = l := by
  induction l with
  | nil => rfl
  | cons x xs ih => simp [List.replicate_succ, ih]

theorem roi_cover_of_extent_eq :
    ∀ (rs rt shape : List ℕ), List.Forall₂ (· ≤ ·) rs rt →
    List.Forall₂ (· ≤ ·) rt shape →
    List.zipWith (fun b a => b - a) rt rs = shape →
    rs = List.replicate shape.length 0 ∧ rt = shape := by
  intro rs rt shape h1
  induction h1 generalizing shape with
  | nil =>
    intro h2 h3
    cases h2
    exact ⟨rfl, rfl⟩
  | @cons a b as bs hab h1 ih =>
    intro h2 h3
    cases h2 with
    | @cons _ c _ cs hbc h2 =>
      simp only [List.zipWith] at h3
      injection h3 with hh ht
      obtain ⟨iha, ihb⟩ := ih _ h2 ht
      have ha0 : a = 0 := by omega
      have hbe : b = c := by omega
      subst ha0
      refine ⟨?_, ?_⟩
      · simp [List.replicate_succ, iha]
      · simp [ihb, hbe]

/-- C7: `OpSimpleBlockwiseWatershed.execute` fails whenever an
in-bounds request does not cover the entire output volume, and
whenever the input shape squeezed of its singleton axes has a
dimensionality other than 2 or 3; a whole-volume request on canonical
`txyzc` axes with a valid squeezed dimensionality proceeds to the
watershed backend without raising. -/
theorem watershed_request_preconditions (shape : List ℕ) (keys : List Char)
    (rs rt : List ℕ) (agg : Bool) (nw : ℕ) :
    (List.Forall₂ (· ≤ ·) rs rt → List.Forall₂ (· ≤ ·) rt shape →
      ¬(rs = List.replicate shape.length 0 ∧ rt = shape) →
      ∃ msg, OpSimpleBlockwiseWatershed.execute shape keys rs rt agg nw =
        Except.error msg) ∧
    (¬((OpSimpleBlockwiseWatershed.squeezeShape shape).length = 2 ∨
       (OpSimpleBlockwiseWatershed.squeezeShape shape).length = 3) →
      ∃ msg, OpSimpleBlockwiseWatershed.execute shape keys rs rt agg nw =
        Except.error msg) ∧
    (keys = ['t', 'x', 'y', 'z', 'c'] →
      ((OpSimpleBlockwiseWatershed.squeezeShape shape).length = 2 ∨
       (OpSimpleBlockwiseWatershed.squeezeShape shape).length = 3) →
      ∃ run, OpSimpleBlockwiseWatershed.execute shape keys
        (List.replicate shape.length 0) shape agg nw = Except.ok run) := by
  refine ⟨?_, ?_, ?_⟩
  · intro hf1 hf2 hnc
    have hz : List.zipWith (fun b a => b - a) rt rs ≠ shape := by
      intro he
      exact hnc (roi_cover_of_extent_eq rs rt shape hf1 hf2 he)
    refine ⟨"Blockwise Watershed must be run on the entire volume", ?_⟩
    simp [OpSimpleBlockwiseWatershed.execute, hz]
  · intro hbad
    by_cases hz : List.zipWith (fun b a => b - a) rt rs = shape
    · by_cases hk2 : keys = ['t', 'x', 'y', 'z', 'c']
      · subst hk2
        refine ⟨"Input shape has an invalid number of non-singleton dimensions", ?_⟩
        simp [OpSimpleBlockwiseWatershed.execute, hz, hbad]
      · refine ⟨"Unsupported input axis keys", ?_⟩
        simp [OpSimpleBlockwiseWatershed.execute, hz, hk2]
    · refine ⟨"Blockwise Watershed must be run on the entire volume", ?_⟩
      simp [OpSimpleBlockwiseWatershed.execute, hz]
  · intro hk hlen
    subst hk
    have hz := zipWith_sub_replicate_zero shape
    rcases hlen with h | h <;> cases agg <;>
      simp [OpSimpleBlockwiseWatershed.execute, hz, h]

/-- Witness for C7: on the `1×4×5×1×1` volume a partial request fails,
a fully-singleton `1×1×1×1×1` volume (squeezed dimensionality 0) fails,
and the whole-volume request proceeds. -/
theorem watershed_request_preconditions_witness :
    (∃ msg, OpSimpleBlockwiseWatershed.execute [1, 4, 5, 1, 1]
      ['t', 'x', 'y', 'z', 'c'] [0, 0, 0, 0, 0] [1, 4, 4, 1, 1] true 2 =
        Except.error msg) ∧
    (∃ msg, OpSimpleBlockwiseWatershed.execute [1, 1, 1, 1, 1]
      ['t', 'x', 'y', 'z', 'c'] [0, 0, 0, 0, 0] [1, 1, 1, 1, 1] true 2 =
        Except.error msg) ∧
    (∃ run, OpSimpleBlockwiseWatershed.execute [1, 4, 5, 1, 1]
      ['t', 'x', 'y', 'z', 'c'] (List.replicate ([1, 4, 5, 1, 1] : List ℕ).length 0)
        [1, 4, 5, 1, 1] true 2 = Except.ok run) :=
  ⟨(watershed_request_preconditions [1, 4, 5, 1, 1] ['t', 'x', 'y', 'z', 'c']
      [0, 0, 0, 0, 0] [1, 4, 4, 1, 1] true 2).1
      (by decide) (by decide) (by decide),
   (watershed_request_preconditions [1, 1, 1, 1, 1] ['t', 'x', 'y', 'z', 'c']
      [0, 0, 0, 0, 0] [1, 1, 1, 1, 1] true 2).2.1 (by decide),
   (watershed_request_preconditions [1, 4, 5, 1, 1] ['t', 'x', 'y', 'z', 'c']
      [0, 0, 0, 0, 0] [1, 4, 5, 1, 1] true 2).2.2 rfl (by decide)⟩
